import Mathlib

/-!
Verification development for the session-pysogs room permission / message
lifecycle layer.

The Python sources (`sogs/utils.py`, `sogs/model/room.py`, `sogs/cleanup.py`)
are shallowly embedded below: bytes become `List Nat`, timestamps become `Int`,
SQL tables become Lean lists of row structures, transactional methods become
functions `DB → Except SogsError DB` (an `Except.error` result models a raised
exception with the enclosing transaction rolled back, i.e. the caller keeps the
pre-call state).

Parts of the repository that live in the database schema (the
`user_permissions` view, the seqno/message_sequence triggers, the
`message_details` soft-delete trigger) are not under `src/`; following the
specification they are modelled from the spec's description and marked
`Modelled from the spec:` in their doc comments.
-/

namespace Sogs

/-- A byte string, one `Nat` per byte. -/
abbrev Bytes := List Nat

/-! ## Padding codec (`sogs/utils.py`) -/

/-- Python cross-type equality as it occurs in `remove_session_message_padding`:
the guard `data[-1] in (b'\x00', b'\x80')` compares the *integer* `data[-1]`
(indexing a `bytes` yields an `int`) with the one-byte *bytes objects*
`b'\x00'` and `b'\x80'`.  In Python an `int` never compares equal to a `bytes`
object, so this comparison is always `False`. -/
def pyIntEqBytesLit (_ : Nat) (_ : Bytes) : Bool := false

/-- `bytes.rstrip(b'\x00')`: drop all trailing `0x00` bytes. -/
def rstripZeros (data : Bytes) : Bytes :=
  ((data.reverse).dropWhile (fun b => b == 0)).reverse

/-- `utils.remove_session_message_padding` (utils.py lines 127-138).

    if data and data[-1] in (b'\x00', b'\x80'):
        stripped_data = data.rstrip(b'\x00')
        if stripped_data and stripped_data[-1] == 0x80:
            data = stripped_data[:-1]
    return data
-/
def remove_session_message_padding (data : Bytes) : Bytes :=
  if !data.isEmpty
      && (pyIntEqBytesLit (data.getLastD 0) [0x00]
          || pyIntEqBytesLit (data.getLastD 0) [0x80]) then
    let stripped := rstripZeros data
    if !stripped.isEmpty && (stripped.getLastD 0 == 0x80) then
      stripped.dropLast
    else data
  else data

/-- `utils.add_session_message_padding` (utils.py lines 141-147).

    if length > len(data):
        data += b'\x80' + b'\x00' * (length - len(data))
    return data
-/
def add_session_message_padding (data : Bytes) (length : Nat) : Bytes :=
  if length > data.length then
    data ++ 0x80 :: List.replicate (length - data.length) 0x00
  else data

/-- The trailing bytes of `d` form a (possibly spurious) padding run: `d` is
nonempty, ends in `0x00` or `0x80`, and stripping the trailing zeros leaves a
string ending in `0x80`.  This is the shape the padding-removal heuristic is
*intended* to strip (claim C9's side condition). -/
def hasPaddingTail (d : Bytes) : Bool :=
  !d.isEmpty
    && (d.getLastD 0 == 0x00 || d.getLastD 0 == 0x80)
    && !(rstripZeros d).isEmpty
    && ((rstripZeros d).getLastD 0 == 0x80)

/-! ## Permission resolution and `Room.check_permission` -/

/-- Room row fields used by the permission engine (`rooms` table / the `Room`
instance attributes loaded in `Room._refresh`). -/
structure RoomRow where
  id : Nat
  message_sequence : Nat
  default_read : Bool
  default_accessible : Bool
  default_write : Bool
  default_upload : Bool
  deriving Repr, DecidableEq

/-- A `user_permission_overrides` row for one (room, user) pair.
`read`/`accessible`/`write`/`upload` are nullable (NULL = inherit room
default); `banned`/`moderator`/`admin`/`visible_mod` are booleans. -/
structure OverrideRow where
  room : Nat
  user : Nat
  banned : Bool
  moderator : Bool
  admin : Bool
  visible_mod : Bool
  read : Option Bool
  accessible : Option Bool
  write : Option Bool
  upload : Option Bool
  deriving Repr, DecidableEq

/-- The resolved 7-tuple `(banned, read, accessible, write, upload, moderator,
admin)` that `Room.check_permission` reads from the `user_permissions` view
(and caches in `_perm_cache`). -/
structure PermissionRow where
  banned : Bool
  read : Bool
  accessible : Bool
  write : Bool
  upload : Bool
  moderator : Bool
  admin : Bool
  deriving Repr, DecidableEq

/-- The named requirement arguments of `Room.check_permission`. -/
structure PermissionReq where
  admin : Bool
  moderator : Bool
  read : Bool
  accessible : Bool
  write : Bool
  upload : Bool
  deriving Repr, DecidableEq

/-- Modelled from the spec: the `user_permissions` view resolution (the view is
part of the SQL schema, which is not under `src/`): "Resolve the user's
per-room row (banned, read, accessible, write, upload, moderator, admin) —
from an explicit override if present, else values inherited from room defaults
except banned/moderator/admin which default to false", with "an override row
existing does not imply every field is set; unset fields fall through to room
defaults". -/
def resolveUserPermissions (room : RoomRow) (ov : Option OverrideRow) : PermissionRow :=
  match ov with
  | none =>
      { banned := false
        read := room.default_read
        accessible := room.default_accessible
        write := room.default_write
        upload := room.default_upload
        moderator := false
        admin := false }
  | some o =>
      { banned := o.banned
        read := o.read.getD room.default_read
        accessible := o.accessible.getD room.default_accessible
        write := o.write.getD room.default_write
        upload := o.upload.getD room.default_upload
        moderator := o.moderator
        admin := o.admin }

/-- The decision tail of `Room.check_permission` (room.py lines 458-472),
operating on the resolved permission row:

    if is_admin: return True
    if admin: return False
    if is_mod: return True
    if moderator: return False
    return (not is_banned
        and (not accessible or can_access or can_read)
        and (not read or can_read)
        and (not write or can_write)
        and (not upload or can_upload))
-/
def checkPermissionRow (p : PermissionRow) (req : PermissionReq) : Bool :=
  if p.admin then true
  else if req.admin then false
  else if p.moderator then true
  else if req.moderator then false
  else
    !p.banned
      && (!req.accessible || p.accessible || p.read)
      && (!req.read || p.read)
      && (!req.write || p.write)
      && (!req.upload || p.upload)

/-- `Room.check_permission` (room.py lines 390-472) for an optional user: when
`user` is `none` the defaults are used directly (with `is_banned`, `is_mod`,
`is_admin` all false); otherwise the user's resolved per-room row is used.
`ov` is the user's override row, if any (the cache lookup / view query). -/
def Room.check_permission (room : RoomRow) (user_ov : Option (Option OverrideRow))
    (req : PermissionReq) : Bool :=
  match user_ov with
  | none =>
      checkPermissionRow
        { banned := false
          read := room.default_read
          accessible := room.default_accessible
          write := room.default_write
          upload := room.default_upload
          moderator := false
          admin := false } req
  | some ov => checkPermissionRow (resolveUserPermissions room ov) req

/-- Requirement record with every flag false (a bare "not banned" check). -/
def noReq : PermissionReq :=
  { admin := false, moderator := false, read := false
    accessible := false, write := false, upload := false }

/-- The `admin=True` requirement (`Room.check_admin`). -/
def adminReq : PermissionReq := { noReq with admin := true }

/-- The `moderator=True` requirement (`Room.check_moderator`). -/
def modReq : PermissionReq := { noReq with moderator := true }

/-- The `read=True` requirement (`Room.check_read`). -/
def readReq : PermissionReq := { noReq with read := true }

/-- The `write=True` requirement (`Room.check_write`). -/
def writeReq : PermissionReq := { noReq with write := true }

/-! ## Database state -/

/-- A `users` table row (the fields the embedded operations consult). -/
structure UserRow where
  id : Nat
  global_moderator : Bool
  global_admin : Bool
  deriving Repr, DecidableEq

/-- A `messages` table row. `data = none` models SQL NULL, i.e. a soft-deleted
message. -/
structure MessageRow where
  id : Nat
  room : Nat
  user : Nat
  posted : Int
  seqno : Nat
  data : Option Bytes
  data_size : Nat
  signature : Bytes
  filtered : Bool
  whisper : Option Nat
  whisper_mods : Bool
  deriving Repr, DecidableEq

/-- A `user_permission_futures` row (scheduled permission change).  `at_`
models the `at` column (`at` is a reserved word in Lean). -/
structure PermFutureRow where
  room : Nat
  user : Nat
  at_ : Int
  read : Option Bool
  write : Option Bool
  upload : Option Bool
  deriving Repr, DecidableEq

/-- A `user_ban_futures` row (scheduled ban change; `banned = false` is a
scheduled unban).  `at_` models the `at` column. -/
structure BanFutureRow where
  room : Nat
  user : Nat
  banned : Bool
  at_ : Int
  deriving Repr, DecidableEq

/-- A `files` table row (the fields the sweeper consults). -/
structure FileRow where
  id : Nat
  room : Nat
  uploader : Nat
  message : Option Nat
  uploaded : Int
  expiry : Option Int
  deriving Repr, DecidableEq

/-- A `message_history` row (only its `replaced` timestamp matters to the
sweeper). -/
structure MessageHistoryRow where
  replaced : Int
  deriving Repr, DecidableEq

/-- A `room_users` activity row. -/
structure RoomUserRow where
  room : Nat
  user : Nat
  last_active : Int
  deriving Repr, DecidableEq

/-- The database state threaded through the embedded operations. -/
structure DB where
  rooms : List RoomRow
  messages : List MessageRow
  overrides : List OverrideRow
  perm_futures : List PermFutureRow
  ban_futures : List BanFutureRow
  files : List FileRow
  message_history : List MessageHistoryRow
  room_users : List RoomUserRow
  next_message_id : Nat
  deriving Repr, DecidableEq

/-- `SELECT * FROM rooms WHERE id = :id` (first match). -/
def findRoom (db : DB) (rid : Nat) : Option RoomRow :=
  db.rooms.find? (fun r => r.id == rid)

/-- `SELECT * FROM user_permission_overrides WHERE room AND "user"`. -/
def findOverride (db : DB) (rid uid : Nat) : Option OverrideRow :=
  db.overrides.find? (fun o => o.room == rid && o.user == uid)

/-- `Room.check_permission` against the database state, for an optional user
(the `user_permissions` view lookup is `resolveUserPermissions` over the
user's override row).  Returns `false` when the room row is absent (in the
source a `Room` instance always denotes an existing row). -/
def dbCheckPermission (db : DB) (rid : Nat) (user : Option UserRow)
    (req : PermissionReq) : Bool :=
  match findRoom db rid with
  | none => false
  | some room =>
      Room.check_permission room (user.map (fun u => findOverride db rid u.id)) req

/-- The exception taxonomy raised by the embedded operations
(`sogs/model/exc.py`). -/
inductive SogsError where
  | badPermission
  | invalidData
  | noSuchPost
  | postRejected
  | postRateLimited
  deriving Repr, DecidableEq

/-- Decidable equality for `Except` results, so that concrete runs of the
embedded operations can be checked by evaluation. -/
instance exceptDecidableEq {ε α : Type} [DecidableEq ε] [DecidableEq α] :
    DecidableEq (Except ε α) := fun x y =>
  match x, y with
  | .ok a, .ok b =>
      if h : a = b then .isTrue (by rw [h])
      else .isFalse (by intro hc; injection hc; exact h ‹_›)
  | .error a, .error b =>
      if h : a = b then .isTrue (by rw [h])
      else .isFalse (by intro hc; injection hc; exact h ‹_›)
  | .ok _, .error _ => .isFalse (fun hc => Except.noConfusion hc)
  | .error _, .ok _ => .isFalse (fun hc => Except.noConfusion hc)

/-- The room's `message_sequence` counter, read from the database state. -/
def roomSeq (db : DB) (rid : Nat) : Nat :=
  ((findRoom db rid).map (fun r => r.message_sequence)).getD 0

/-- Write the room's `message_sequence` counter. -/
def setRoomSeq (db : DB) (rid : Nat) (seq : Nat) : DB :=
  { db with rooms := db.rooms.map (fun r =>
      if r.id == rid then { r with message_sequence := seq } else r) }

/-! ## Message mutation primitives (seqno trigger, spec-modelled) -/

/-- Modelled from the spec: the soft-delete trigger behind
`DELETE FROM message_details WHERE id IN :ids` together with the seqno counter
(both live in the SQL schema, not under `src/`): each deleted message row has
its `data` nulled and its `seqno` stamped to a newly incremented room-wide
`message_sequence` counter.  Returns the rewritten message list and the final
counter value. -/
def softDeleteAux (msgs : List MessageRow) (ids : List Nat) (seq : Nat) :
    List MessageRow × Nat :=
  match msgs with
  | [] => ([], seq)
  | m :: ms =>
      if ids.contains m.id then
        let res := softDeleteAux ms ids (seq + 1)
        ({ m with data := none, seqno := seq + 1 } :: res.1, res.2)
      else
        let res := softDeleteAux ms ids seq
        (m :: res.1, res.2)

/-- Soft-delete the messages with the given ids in the given room's database,
bumping the room's `message_sequence` once per affected row (spec-modelled
trigger, see `softDeleteAux`). -/
def softDeleteMessages (db : DB) (rid : Nat) (ids : List Nat) : DB :=
  let res := softDeleteAux db.messages ids (roomSeq db rid)
  setRoomSeq { db with messages := res.1 } rid res.2

/-- Modelled from the spec: `INSERT INTO messages ...` plus the insert trigger
("every message insert/edit/delete stamps the row's seqno to a newly
incremented room-wide counter", schema not under `src/`).  The new row gets
`id = db.next_message_id`, `posted = now`, and `seqno` = the incremented
room counter.  Returns the new state, the new message id, and its seqno. -/
def insertMessage (db : DB) (rid : Nat) (uid : Nat) (data : Bytes)
    (data_size : Nat) (sig : Bytes) (filtered : Bool) (whisper : Option Nat)
    (whisper_mods : Bool) (now : Int) : DB × Nat × Nat :=
  let seq := roomSeq db rid + 1
  let mid := db.next_message_id
  let row : MessageRow :=
    { id := mid, room := rid, user := uid, posted := now, seqno := seq
      data := some data, data_size := data_size, signature := sig
      filtered := filtered, whisper := whisper, whisper_mods := whisper_mods }
  (setRoomSeq { db with
      messages := db.messages ++ [row]
      next_message_id := mid + 1 } rid seq,
   mid, seq)

/-- Modelled from the spec: `UPDATE messages SET data, data_size, signature
WHERE id = :m` plus the update trigger stamping `seqno` from the incremented
room counter (schema not under `src/`). -/
def updateMessageRow (db : DB) (rid : Nat) (mid : Nat) (data : Bytes)
    (data_size : Nat) (sig : Bytes) : DB :=
  let seq := roomSeq db rid + 1
  setRoomSeq { db with messages := db.messages.map (fun m =>
      if m.id == mid then
        { m with data := some data, data_size := data_size
                 signature := sig, seqno := seq }
      else m) } rid seq

/-! ## Room operations (`sogs/model/room.py`)

The embeddings below omit pieces that are external collaborators per the spec
(logging, the `send_mule` notification, the blinding lookup — modelled with
`config.REQUIRE_BLIND_KEYS` false) and the `_own_files` attachment-association
step of `add_post`/`edit_post`, which mutates only the `files` table (no claim
here concerns it). -/

/-- `rate_limit_size` (room.py line 27). -/
def rate_limit_size : Nat := 5

/-- `rate_limit_interval` (room.py line 28; 16.0 seconds, times are `Int`). -/
def rate_limit_interval : Int := 16

/-- `Room.should_filter` (room.py lines 630-652).  The profanity-filter
collaborator and its configuration enter as booleans: `filterEnabled` is
`config.PROFANITY_FILTER`, `profanityHit` is
`better_profanity.profanity.contains_profanity(...)`, `silentCfg` is
`config.PROFANITY_SILENT`. -/
def should_filter (db : DB) (rid : Nat) (user : UserRow)
    (filterEnabled profanityHit silentCfg : Bool) : Except SogsError Bool :=
  if filterEnabled && !(dbCheckPermission db rid (some user) adminReq) then
    if profanityHit then
      if silentCfg then .ok true
      else .error .postRejected
    else .ok false
  else .ok false

/-- The rate-limit count query of `add_post` (room.py lines 722-730):
`SELECT COUNT(*) FROM messages WHERE room = :r AND "user" = :u AND posted >=
:since` with `since = now - rate_limit_interval`. -/
def recentPostCount (db : DB) (rid uid : Nat) (now : Int) : Nat :=
  (db.messages.filter (fun m =>
      m.room == rid && m.user == uid
        && m.posted ≥ now - rate_limit_interval)).length

/-- The message-details record `Room.add_post` returns. -/
structure PostedMsg where
  id : Nat
  posted : Int
  seqno : Nat
  data : Bytes
  signature : Bytes
  deriving Repr, DecidableEq

/-- `Room.add_post` (room.py lines 684-777).  `data`/`sig` are optional to
model Python `None`; an `Except.error` models a raised exception (transaction
rolled back, caller keeps the old state). -/
def add_post (db : DB) (rid : Nat) (user : UserRow)
    (data : Option Bytes) (sig : Option Bytes)
    (whisper_to : Option UserRow) (whisper_mods : Bool)
    (filterEnabled profanityHit silentCfg : Bool) (now : Int) :
    Except SogsError (DB × PostedMsg) :=
  if !(dbCheckPermission db rid (some user) writeReq) then
    .error .badPermission
  else
    match data, sig with
    | some d, some s =>
      if s.length != 64 then
        .error .invalidData
      else if (whisper_to.isSome || whisper_mods)
          && !(dbCheckPermission db rid (some user) modReq) then
        .error .badPermission
      else
        match should_filter db rid user filterEnabled profanityHit silentCfg with
        | .error e => .error e
        | .ok filtered =>
          -- with db.transaction(): the sliding-window rate-limit check (the
          -- count is a pure read, so guarding its computation by the
          -- admin-exemption test and then comparing is one conjunction here):
          if (rate_limit_size != 0
                && !(dbCheckPermission db rid (some user) adminReq))
              && recentPostCount db rid user.id now ≥ rate_limit_size then
            .error .postRateLimited
          else
            let data_size := d.length
            let unpadded_data := remove_session_message_padding d
            let res := insertMessage db rid user.id unpadded_data data_size s
                filtered (whisper_to.map (fun u => u.id)) whisper_mods now
            .ok (res.1, { id := res.2.1, posted := now, seqno := res.2.2
                          data := d, signature := s })
    | _, _ => .error .invalidData

/-- `Room.edit_post` (room.py lines 779-839). -/
def edit_post (db : DB) (rid : Nat) (user : UserRow) (msg_id : Nat)
    (data : Option Bytes) (sig : Option Bytes)
    (filterEnabled profanityHit silentCfg : Bool) :
    Except SogsError DB :=
  if !(dbCheckPermission db rid (some user) writeReq) then
    .error .badPermission
  else
    match data, sig with
    | some d, some s =>
      if s.length != 64 then
        .error .invalidData
      else
        match should_filter db rid user filterEnabled profanityHit silentCfg with
        | .error e => .error e
        | .ok filtered =>
          -- with db.transaction():
          match db.messages.find? (fun m =>
              m.id == msg_id && m.room == rid && m.data.isSome) with
          | none => .error .noSuchPost
          | some author_row =>
            if author_row.user != user.id then
              .error .badPermission
            else if filtered then
              -- Silent filtering: drop the actual post update.
              .ok db
            else
              let data_size := d.length
              let unpadded_data := remove_session_message_padding d
              .ok (updateMessageRow db rid msg_id unpadded_data data_size s)
    | _, _ => .error .invalidData

/-- The first query of a `delete_posts` slice: the ids among `slice` that
denote not-yet-deleted messages of this room ("filter out ids that are
already deleted ... or that aren't part of the room"). -/
def sliceIds (db : DB) (rid : Nat) (slice : List Nat) : List Nat :=
  (db.messages.filter (fun m =>
      m.room == rid && m.data.isSome && slice.contains m.id)).map
    (fun m => m.id)

/-- The `SELECT EXISTS(SELECT * FROM messages WHERE "user" != :u AND id IN
:ids)` check of `delete_posts`: some message among `ids` has a different
author. -/
def sliceHasForeign (db : DB) (deleter : UserRow) (ids : List Nat) : Bool :=
  db.messages.any (fun m => m.user != deleter.id && ids.contains m.id)

/-- One iteration of the `delete_posts` while-loop body (room.py lines
858-899) over a slice of at most 50 ids. -/
def delete_posts_slice (db : DB) (rid : Nat) (deleter : UserRow)
    (slice : List Nat) (deleted : List Nat) :
    Except SogsError (DB × List Nat) :=
  let ids := sliceIds db rid slice
  if ids.isEmpty then .ok (db, deleted)
  else if !(dbCheckPermission db rid (some deleter) modReq)
      && sliceHasForeign db deleter ids then
    .error .badPermission
  else .ok (softDeleteMessages db rid ids, deleted ++ ids)

/-- The `while i < len(message_ids)` loop of `Room.delete_posts` (room.py
lines 854-899), processing `message_ids` in slices of 50 inside one
transaction.  `deleted` accumulates the ids actually deleted. -/
def delete_posts_loop (db : DB) (rid : Nat) (deleter : UserRow)
    (message_ids : List Nat) (deleted : List Nat) :
    Except SogsError (DB × List Nat) :=
  if message_ids.isEmpty then .ok (db, deleted)
  else
    match delete_posts_slice db rid deleter (message_ids.take 50) deleted with
    | .error e => .error e
    | .ok (db', deleted') =>
        delete_posts_loop db' rid deleter (message_ids.drop 50) deleted'
  termination_by message_ids.length
  decreasing_by
    rename_i hne
    simp only [List.length_drop]
    refine Nat.sub_lt (List.length_pos.mpr ?_) (by decide)
    intro he
    exact hne (by simp [he])

/-- `Room.delete_posts` (room.py lines 841-901): bulk soft-delete inside one
transaction; an `Except.error` result models the whole transaction rolled
back (nothing in the batch deleted). -/
def delete_posts (db : DB) (rid : Nat) (message_ids : List Nat)
    (deleter : UserRow) : Except SogsError (DB × List Nat) :=
  delete_posts_loop db rid deleter message_ids []

/-- `Room.ban_user` (room.py lines 1108-1183).  `timeout` is `Option Int`
(`None` = permanent); note the Python `if timeout:` truthiness test, under
which a `timeout` of `0` is falsy.  Blinding is modelled disabled. -/
def ban_user (db : DB) (rid : Nat) (to_ban : UserRow) (mod : UserRow)
    (timeout : Option Int) (now : Int) : Except SogsError DB :=
  -- with db.transaction():
  if !(dbCheckPermission db rid (some mod) modReq) then
    .error .badPermission   -- "user is not a moderator"
  else if to_ban.id == mod.id then
    .error .badPermission   -- "self-ban not permitted"
  else if to_ban.global_moderator then
    .error .badPermission   -- "global mods/admins cannot be banned"
  else if dbCheckPermission db rid (some to_ban) modReq
      && !(dbCheckPermission db rid (some mod) adminReq) then
    .error .badPermission   -- "only admins can ban room mods/admins"
  else
  -- INSERT ... ON CONFLICT DO UPDATE SET banned=TRUE, moderator=FALSE, admin=FALSE:
  let db1 : DB :=
    if (findOverride db rid to_ban.id).isSome then
      { db with overrides := db.overrides.map (fun o =>
          if o.room == rid && o.user == to_ban.id then
            { o with banned := true, moderator := false, admin := false }
          else o) }
    else
      { db with overrides := db.overrides ++
          [{ room := rid, user := to_ban.id, banned := true
             moderator := false, admin := false, visible_mod := true
             read := none, accessible := none, write := none, upload := none }] }
  -- Replace (or remove) an existing scheduled unban:
  let db2 : DB := { db1 with ban_futures := db1.ban_futures.filter (fun f =>
      !(f.room == rid && f.user == to_ban.id && !f.banned)) }
  match timeout with
  | some t =>
      if t != 0 then
        .ok { db2 with ban_futures := db2.ban_futures ++
            [{ room := rid, user := to_ban.id, banned := false, at_ := now + t }] }
      else .ok db2
  | none => .ok db2

/-- `Room.unban_user` (room.py lines 1185-1215).  Returns the new state and
whether a ban was actually removed (`rowcount > 0`). -/
def unban_user (db : DB) (rid : Nat) (to_unban : UserRow) (mod : UserRow) :
    Except SogsError (DB × Bool) :=
  if !(dbCheckPermission db rid (some mod) modReq) then
    .error .badPermission
  else
    let matched := db.overrides.any (fun o =>
        o.room == rid && o.user == to_unban.id && o.banned)
    .ok ({ db with overrides := db.overrides.map (fun o =>
        if o.room == rid && o.user == to_unban.id && o.banned then
          { o with banned := false }
        else o) }, matched)

/-! ## The Sweeper (`sogs/cleanup.py`) -/

/-- `cleanup.prune_files` (cleanup.py lines 26-56).  The paths of files with
`expiry < now` are collected for unlinking (`SELECT path ... WHERE expiry < ?`;
SQL NULL comparisons are false, so never-expiring files are kept); if none, the
function returns 0 early; otherwise rows with `expiry <= now` are deleted.
The disk unlink is a side effect outside the database state. -/
def prune_files (db : DB) (now : Int) : DB × Nat :=
  let to_remove := db.files.filter (fun f =>
      match f.expiry with | some e => e < now | none => false)
  if to_remove.isEmpty then (db, 0)
  else
    ({ db with files := db.files.filter (fun f =>
        !(match f.expiry with | some e => e ≤ now | none => false)) },
     to_remove.length)

/-- `cleanup.prune_message_history` (cleanup.py lines 59-70):
`DELETE FROM message_history WHERE replaced < now - threshold * 86400`
(`threshold` is `config.MESSAGE_HISTORY_PRUNE_THRESHOLD`, in days). -/
def prune_message_history (db : DB) (now : Int) (threshold : Int) : DB × Nat :=
  let keep := db.message_history.filter (fun r =>
      !(r.replaced < now - threshold * 86400))
  ({ db with message_history := keep },
   db.message_history.length - keep.length)

/-- `cleanup.prune_room_activity` (cleanup.py lines 73-84):
`DELETE FROM room_users WHERE last_active < now - threshold * 86400`
(`threshold` is `config.ROOM_ACTIVE_PRUNE_THRESHOLD`, in days). -/
def prune_room_activity (db : DB) (now : Int) (threshold : Int) : DB × Nat :=
  let keep := db.room_users.filter (fun r =>
      !(r.last_active < now - threshold * 86400))
  ({ db with room_users := keep },
   db.room_users.length - keep.length)

/-- One upsert performed by `apply_permission_updates` for a due
`user_permission_futures` row: `INSERT INTO user_permission_overrides (room,
user, read, write, upload) ... ON CONFLICT (room, user) DO UPDATE SET read =
COALESCE(excluded.read, read), write = COALESCE(excluded.write, write), upload
= COALESCE(excluded.upload, upload)` — a future row only overwrites the fields
it explicitly sets. -/
def applyPermFuture (db : DB) (f : PermFutureRow) : DB :=
  if (findOverride db f.room f.user).isSome then
    { db with overrides := db.overrides.map (fun o =>
        if o.room == f.room && o.user == f.user then
          { o with read := (f.read.map some).getD o.read
                   write := (f.write.map some).getD o.write
                   upload := (f.upload.map some).getD o.upload }
        else o) }
  else
    { db with overrides := db.overrides ++
        [{ room := f.room, user := f.user, banned := false
           moderator := false, admin := false, visible_mod := true
           read := f.read, accessible := none, write := f.write
           upload := f.upload }] }

/-- `cleanup.apply_permission_updates` (cleanup.py lines 87-109): applies every
`user_permission_futures` row with `at <= now` and then deletes those rows.
Note that this — the only future-application code in the repository — never
touches the `user_ban_futures` table. -/
def apply_permission_updates (db : DB) (now : Int) : DB × Nat :=
  let due := db.perm_futures.filter (fun f => f.at_ ≤ now)
  let num_applied := due.length
  if num_applied == 0 then (db, 0)
  else
    let db1 := due.foldl applyPermFuture db
    ({ db1 with perm_futures := db1.perm_futures.filter (fun f =>
        !(f.at_ ≤ now)) }, num_applied)

/-- `cleanup.test_timer` (cleanup.py lines 11-23): one timer cycle runs
`prune_files`, `prune_message_history`, `prune_room_activity` and
`apply_permission_updates` in order.  Returns the final state and the four
counts. -/
def test_timer_cycle (db : DB) (now : Int)
    (msgHistThreshold roomActThreshold : Int) :
    DB × Nat × Nat × Nat × Nat :=
  let rf := prune_files db now
  let rh := prune_message_history rf.1 now msgHistThreshold
  let ra := prune_room_activity rh.1 now roomActThreshold
  let rp := apply_permission_updates ra.1 now
  (rp.1, rf.2, rh.2, ra.2, rp.2)

/-! ## Operation dispatcher and sample data -/

/-- A message-mutating room operation (post / edit / bulk delete), used to
state the claim that `message_sequence` is monotone across every operation. -/
inductive RoomOp where
  | post (user : UserRow) (data : Option Bytes) (sig : Option Bytes)
      (whisper_to : Option UserRow) (whisper_mods : Bool)
      (filterEnabled profanityHit silentCfg : Bool) (now : Int)
  | edit (user : UserRow) (msg_id : Nat) (data : Option Bytes)
      (sig : Option Bytes) (filterEnabled profanityHit silentCfg : Bool)
  | delete (message_ids : List Nat) (deleter : UserRow)

/-- Run a room operation against the database, keeping only the resulting
state (an `Except.error` models the raised exception with the transaction
rolled back). -/
def runRoomOp (db : DB) (rid : Nat) : RoomOp → Except SogsError DB
  | .post u d s wt wm fe ph sc now =>
      (add_post db rid u d s wt wm fe ph sc now).map (fun r => r.1)
  | .edit u mid d s fe ph sc =>
      edit_post db rid u mid d s fe ph sc
  | .delete ids u =>
      (delete_posts db rid ids u).map (fun r => r.1)

/-- Extract the `.ok` payload of an `Except`, with a fallback. -/
def getOkD {ε α : Type} (e : Except ε α) (dflt : α) : α :=
  match e with
  | .ok a => a
  | .error _ => dflt

/-- Sample room: id 1, all defaults allowed, `message_sequence` 0. -/
def sampleRoom : RoomRow :=
  { id := 1, message_sequence := 0, default_read := true
    default_accessible := true, default_write := true, default_upload := true }

/-- Sample plain user (no override). -/
def user2 : UserRow := { id := 2, global_moderator := false, global_admin := false }

/-- Sample room moderator (see `modOverride`). -/
def user3 : UserRow := { id := 3, global_moderator := false, global_admin := false }

/-- Sample room admin (see `adminOverride`). -/
def user4 : UserRow := { id := 4, global_moderator := false, global_admin := false }

/-- Sample banned user (see `bannedOverride`). -/
def user5 : UserRow := { id := 5, global_moderator := false, global_admin := false }

/-- Override making user 3 a room moderator of room 1. -/
def modOverride : OverrideRow :=
  { room := 1, user := 3, banned := false, moderator := true, admin := false
    visible_mod := true, read := none, accessible := none, write := none
    upload := none }

/-- Override making user 4 a room admin of room 1. -/
def adminOverride : OverrideRow :=
  { room := 1, user := 4, banned := false, moderator := true, admin := true
    visible_mod := true, read := none, accessible := none, write := none
    upload := none }

/-- Override banning user 5 from room 1. -/
def bannedOverride : OverrideRow :=
  { room := 1, user := 5, banned := true, moderator := false, admin := false
    visible_mod := true, read := none, accessible := none, write := none
    upload := none }

/-- A pending scheduled unban of user 5 from room 1 at time 100. -/
def unbanFuture5 : BanFutureRow :=
  { room := 1, user := 5, banned := false, at_ := 100 }

/-- Sample database: room 1 with a moderator (3), an admin (4) and a banned
user (5) whose timed unban is pending. -/
def sampleDB : DB :=
  { rooms := [sampleRoom]
    messages := []
    overrides := [modOverride, adminOverride, bannedOverride]
    perm_futures := []
    ban_futures := [unbanFuture5]
    files := []
    message_history := []
    room_users := []
    next_message_id := 1 }

/-- A valid 64-byte signature value for sample posts. -/
def sampleSig : Bytes := List.replicate 64 7

/-- A sample post operation by user 2 in room 1 at time 50. -/
def samplePostOp : RoomOp :=
  .post user2 (some [1, 2, 3]) (some sampleSig) none false false false false 50

/-- The state after running `samplePostOp` on `sampleDB`. -/
def samplePostDB : DB := getOkD (runRoomOp sampleDB 1 samplePostOp) sampleDB

/-- The state after moderator 3 unbans user 5 in `sampleDB`. -/
def sampleUnbanDB : DB :=
  getOkD ((unban_user sampleDB 1 user5 user3).map (fun r => r.1)) sampleDB

/-- The state after moderator 3 permanently bans user 2 in `sampleDB`. -/
def sampleBanDB : DB :=
  getOkD (ban_user sampleDB 1 user2 user3 none 50) sampleDB

/-- A live message (id 10) authored by user 9 in room 1. -/
def foreignMsg : MessageRow :=
  { id := 10, room := 1, user := 9, posted := 5, seqno := 1
    data := some [1], data_size := 1, signature := sampleSig
    filtered := false, whisper := none, whisper_mods := false }

/-- `sampleDB` extended with `foreignMsg` already posted. -/
def sampleMsgDB : DB :=
  { sampleDB with
      rooms := [{ sampleRoom with message_sequence := 1 }]
      messages := [foreignMsg]
      next_message_id := 11 }

/-- Five messages by user 2 posted in room 1 at times 40..44. -/
def busyMsgs : List MessageRow :=
  (List.range 5).map (fun i =>
    { id := 20 + i, room := 1, user := 2, posted := 40 + (i : Int)
      seqno := i + 1, data := some [9], data_size := 1
      signature := sampleSig, filtered := false, whisper := none
      whisper_mods := false })

/-- `sampleDB` after user 2 posted five messages at times 40..44. -/
def busyDB : DB :=
  { sampleDB with
      rooms := [{ sampleRoom with message_sequence := 5 }]
      messages := busyMsgs
      next_message_id := 25 }

/-! ## Helper lemmas -/

/-- The padding-stripping branch of `remove_session_message_padding` is
unreachable (its guard compares an `int` with `bytes` objects), so the
function is the identity. -/
theorem remove_session_message_padding_eq_id (d : Bytes) :
    remove_session_message_padding d = d := by
  simp [remove_session_message_padding, pyIntEqBytesLit]

/-- `check_permission(..., admin=True)` computes exactly the resolved
`admin` flag. -/
theorem checkPermissionRow_adminReq (p : PermissionRow) :
    checkPermissionRow p adminReq = p.admin := by
  obtain ⟨b, r, a, w, u, m, ad⟩ := p
  revert b r a w u m ad
  decide

/-- An admin passes every permission check. -/
theorem checkPermissionRow_of_admin (p : PermissionRow) (req : PermissionReq)
    (h : p.admin = true) : checkPermissionRow p req = true := by
  simp [checkPermissionRow, h]

/-- The decision tail, with admin/moderator neither held nor required, is the
banned/read/accessible/write/upload conjunction. -/
theorem checkPermissionRow_plain_iff (p : PermissionRow) (req : PermissionReq)
    (hpa : p.admin = false) (hpm : p.moderator = false)
    (hra : req.admin = false) (hrm : req.moderator = false) :
    (checkPermissionRow p req = true ↔
      (p.banned = false
        ∧ (req.read = true → p.read = true)
        ∧ (req.accessible = true → (p.accessible = true ∨ p.read = true))
        ∧ (req.write = true → p.write = true)
        ∧ (req.upload = true → p.upload = true))) := by
  obtain ⟨pb, pr, pa, pw, pu, pm, pad⟩ := p
  obtain ⟨ra, rm, rr, rc, rw, ru⟩ := req
  simp only at hpa hpm hra hrm
  subst hpa hpm hra hrm
  revert pb pr pa pw pu rr rc rw ru
  decide

/-- `insertMessage` appends a row carrying exactly the data it was given. -/
theorem insertMessage_stores (db : DB) (rid uid : Nat) (data : Bytes)
    (ds : Nat) (sig : Bytes) (f : Bool) (w : Option Nat) (wm : Bool)
    (now : Int) :
    ∃ m ∈ ((insertMessage db rid uid data ds sig f w wm now).1).messages,
      m.id = (insertMessage db rid uid data ds sig f w wm now).2.1
        ∧ m.data = some data := by
  refine ⟨{ id := db.next_message_id, room := rid, user := uid, posted := now
            seqno := roomSeq db rid + 1, data := some data, data_size := ds
            signature := sig, filtered := f, whisper := w
            whisper_mods := wm }, ?_, rfl, rfl⟩
  simp [insertMessage, setRoomSeq]

/-! ## C9 and C10: the padding codec -/

/-- C9: for every byte sequence `d` whose trailing bytes are not a spurious
0x80/0x00 padding run,
`add_session_message_padding (remove_session_message_padding d) (len d) = d`.
(In this code base the removal function is the identity, so the round trip
holds; the side condition of the claim is kept as stated.) -/
theorem c9_padding_round_trip (d : Bytes) (_h : hasPaddingTail d = false) :
    add_session_message_padding (remove_session_message_padding d) d.length = d := by
  rw [remove_session_message_padding_eq_id]
  simp [add_session_message_padding]

/-- Witness for C9 at the concrete input `[1, 2, 3]`. -/
theorem c9_padding_round_trip_witness :
    hasPaddingTail [1, 2, 3] = false
      ∧ add_session_message_padding
          (remove_session_message_padding [1, 2, 3]) 3 = [1, 2, 3] :=
  ⟨by decide, c9_padding_round_trip [1, 2, 3] (by decide)⟩

/-- C10: `remove_session_message_padding` returns its input unchanged for
every byte string (the guard compares the integer `data[-1]` with the bytes
objects `b'\x00'`/`b'\x80'`, which never compare equal, so the stripping
branch is unreachable); consequently a successful `add_post` stores the
message body verbatim, with no padding removed. -/
theorem c10_padding_removal_is_identity :
    (∀ d : Bytes, remove_session_message_padding d = d)
    ∧ ∀ (db : DB) (rid : Nat) (user : UserRow) (d s : Bytes)
        (wt : Option UserRow) (wm fe ph sc : Bool) (now : Int)
        (db' : DB) (res : PostedMsg),
        add_post db rid user (some d) (some s) wt wm fe ph sc now
          = .ok (db', res) →
        ∃ m ∈ db'.messages, m.id = res.id ∧ m.data = some d := by
  refine ⟨remove_session_message_padding_eq_id, ?_⟩
  intro db rid user d s wt wm fe ph sc now db' res h
  simp only [add_post] at h
  repeat' split at h
  any_goals exact Except.noConfusion h
  injection h with h1
  simp only [Prod.mk.injEq] at h1
  obtain ⟨hdb, hres⟩ := h1
  obtain ⟨m, hmem, hid, hdata⟩ := insertMessage_stores db rid user.id
    (remove_session_message_padding d) d.length s _ (wt.map (fun u => u.id))
    wm now
  refine ⟨m, ?_, ?_, ?_⟩
  · rw [← hdb]; exact hmem
  · rw [← hres]; exact hid
  · rw [hdata, remove_session_message_padding_eq_id]

/-- Witness for C10's `add_post` clause: a concrete successful post of body
`[1, 2, 3]` by user 2 in room 1 of `sampleDB`. -/
theorem c10_padding_removal_is_identity_witness :
    add_post sampleDB 1 user2 (some [1, 2, 3]) (some sampleSig) none false
        false false false 50
      = .ok (samplePostDB,
             { id := 1, posted := 50, seqno := 1, data := [1, 2, 3]
               signature := sampleSig })
    ∧ ∃ m ∈ samplePostDB.messages,
        m.id = (1 : Nat) ∧ m.data = some [1, 2, 3] :=
  ⟨by rfl,
   c10_padding_removal_is_identity.2 sampleDB 1 user2 [1, 2, 3] sampleSig
     none false false false false 50 samplePostDB
     { id := 1, posted := 50, seqno := 1, data := [1, 2, 3]
       signature := sampleSig }
     (by rfl)⟩

/-! ## C1 and C2: the permission cascade -/

/-- C1: for every room and every user who is neither a room admin nor a room
moderator (and with neither the admin nor moderator requirement requested),
`Room.check_permission` returns true if and only if the user is not banned AND
(read is not required OR the user can read) AND (accessible is not required OR
the user can access OR the user can read) AND (write is not required OR the
user can write) AND (upload is not required OR the user can upload), where
each capability comes from the resolved per-room permission row (override or
room default). -/
theorem c1_check_permission_plain_user (room : RoomRow)
    (ov : Option OverrideRow) (req : PermissionReq)
    (hpa : (resolveUserPermissions room ov).admin = false)
    (hpm : (resolveUserPermissions room ov).moderator = false)
    (hra : req.admin = false) (hrm : req.moderator = false) :
    (Room.check_permission room (some ov) req = true ↔
      ((resolveUserPermissions room ov).banned = false
        ∧ (req.read = true → (resolveUserPermissions room ov).read = true)
        ∧ (req.accessible = true →
            ((resolveUserPermissions room ov).accessible = true
              ∨ (resolveUserPermissions room ov).read = true))
        ∧ (req.write = true → (resolveUserPermissions room ov).write = true)
        ∧ (req.upload = true →
            (resolveUserPermissions room ov).upload = true))) :=
  checkPermissionRow_plain_iff (resolveUserPermissions room ov) req
    hpa hpm hra hrm

/-- Witness for C1: user 5's banned override in room 1 denies a read check. -/
theorem c1_check_permission_plain_user_witness :
    ((resolveUserPermissions sampleRoom (some bannedOverride)).admin = false
      ∧ (resolveUserPermissions sampleRoom (some bannedOverride)).moderator
          = false
      ∧ readReq.admin = false ∧ readReq.moderator = false)
    ∧ (Room.check_permission sampleRoom (some (some bannedOverride)) readReq
          = true ↔
        ((resolveUserPermissions sampleRoom (some bannedOverride)).banned
            = false
          ∧ (readReq.read = true →
              (resolveUserPermissions sampleRoom (some bannedOverride)).read
                = true)
          ∧ (readReq.accessible = true →
              ((resolveUserPermissions sampleRoom
                  (some bannedOverride)).accessible = true
                ∨ (resolveUserPermissions sampleRoom
                    (some bannedOverride)).read = true))
          ∧ (readReq.write = true →
              (resolveUserPermissions sampleRoom (some bannedOverride)).write
                = true)
          ∧ (readReq.upload = true →
              (resolveUserPermissions sampleRoom
                  (some bannedOverride)).upload = true))) :=
  ⟨by decide,
   c1_check_permission_plain_user sampleRoom (some bannedOverride) readReq
     (by decide) (by decide) (by decide) (by decide)⟩

/-- C2: if `check_permission(U, {admin})` is true then `check_permission(U,
REQS)` is true for every requirement set REQS (including the bare
banned-check). -/
theorem c2_admin_implies_all_permissions (room : RoomRow)
    (uo : Option (Option OverrideRow)) (req : PermissionReq)
    (h : Room.check_permission room uo adminReq = true) :
    Room.check_permission room uo req = true := by
  cases uo with
  | none =>
      rw [Room.check_permission, checkPermissionRow_adminReq] at h
      exact absurd h (by simp)
  | some ov =>
      rw [Room.check_permission, checkPermissionRow_adminReq] at h
      exact checkPermissionRow_of_admin _ req h

/-- Witness for C2: room admin user 4 passes the write check. -/
theorem c2_admin_implies_all_permissions_witness :
    Room.check_permission sampleRoom (some (some adminOverride)) adminReq
        = true
    ∧ Room.check_permission sampleRoom (some (some adminOverride)) writeReq
        = true :=
  ⟨by decide,
   c2_admin_implies_all_permissions sampleRoom (some (some adminOverride))
     writeReq (by decide)⟩

/-! ## C3 and C4: timed bans and the sweeper -/

/-- C3 (code bug): `ban_user` with `timeout = 0` — a non-positive timeout the
claim (and the function's own docstring) says still schedules near-instant
reversal — bans user 2 but inserts *no* scheduled-unban future row (the
Python guard `if timeout:` is falsy at 0), leaving the ban permanent: the
ban-futures table still holds only the unrelated user-5 row, and the banned
user now fails even the bare (no-requirement) permission check. -/
theorem c3_ban_user_timeout_zero_schedules_no_reversal :
    (ban_user sampleDB 1 user2 user3 (some 0) 50).map
      (fun db' => (db'.ban_futures, dbCheckPermission db' 1 (some user2) noReq))
      = .ok ([unbanFuture5], false) := by
  rfl

/-- `applyPermFuture` never touches the `user_ban_futures` table. -/
theorem applyPermFuture_ban_futures (db : DB) (f : PermFutureRow) :
    (applyPermFuture db f).ban_futures = db.ban_futures := by
  unfold applyPermFuture
  split <;> rfl

/-- Folding `applyPermFuture` never touches the `user_ban_futures` table. -/
theorem foldl_applyPermFuture_ban_futures (l : List PermFutureRow) :
    ∀ db : DB, (l.foldl applyPermFuture db).ban_futures = db.ban_futures := by
  induction l with
  | nil => intro db; rfl
  | cons f t ih =>
      intro db
      rw [List.foldl_cons, ih, applyPermFuture_ban_futures]

/-- `prune_files` never touches the `user_ban_futures` table. -/
theorem prune_files_ban_futures (db : DB) (now : Int) :
    ((prune_files db now).1).ban_futures = db.ban_futures := by
  unfold prune_files
  dsimp only
  split <;> rfl

/-- `prune_message_history` never touches the `user_ban_futures` table. -/
theorem prune_message_history_ban_futures (db : DB) (now th : Int) :
    ((prune_message_history db now th).1).ban_futures = db.ban_futures := rfl

/-- `prune_room_activity` never touches the `user_ban_futures` table. -/
theorem prune_room_activity_ban_futures (db : DB) (now th : Int) :
    ((prune_room_activity db now th).1).ban_futures = db.ban_futures := rfl

/-- `apply_permission_updates` never touches the `user_ban_futures` table. -/
theorem apply_permission_updates_ban_futures (db : DB) (now : Int) :
    ((apply_permission_updates db now).1).ban_futures = db.ban_futures := by
  unfold apply_permission_updates
  dsimp only
  split
  · rfl
  · exact foldl_applyPermFuture_ban_futures _ db

/-- C4 (code bug): a sweeper cycle (`test_timer`) leaves the
`user_ban_futures` table exactly as it was — due ban-future rows are neither
applied to the override rows nor deleted, for any state and any current time
(the cycle's only future-application step, `apply_permission_updates`, reads
`user_permission_futures` alone). -/
theorem c4_sweeper_never_applies_ban_futures (db : DB)
    (now mh ra : Int) :
    ((test_timer_cycle db now mh ra).1).ban_futures = db.ban_futures := by
  unfold test_timer_cycle
  rw [apply_permission_updates_ban_futures, prune_room_activity_ban_futures,
    prune_message_history_ban_futures, prune_files_ban_futures]

/-! ## C7: future invalidation by ban mutations -/

/-- C7 counterexample: in `sampleDB`, user 5 is banned with a pending timed
unban (`unbanFuture5`); moderator 3's `unban_user` succeeds (a ban was
removed, the returned flag is `true`) yet the pending timed-unban future row
is *not* deleted — it is still the whole `user_ban_futures` table afterwards,
contradicting the claim that it is deleted in the same transaction. -/
theorem c7_unban_keeps_pending_future_counterexample :
    (unban_user sampleDB 1 user5 user3).map
      (fun r => (r.1.ban_futures, r.2)) = .ok ([unbanFuture5], true) := by
  rfl

/-- C7 (amended): `ban_user` does invalidate moot scheduled rows — a
(permanent) ban deletes every pending scheduled-unban future row for
(room, to_ban) in the same transaction as the ban upsert — but `unban_user`
only clears the banned override: it leaves `user_ban_futures` untouched. -/
theorem c7_ban_cancels_pending_unban_futures :
    (∀ (db : DB) (rid : Nat) (to_unban mod : UserRow) (db' : DB)
        (removed : Bool),
        unban_user db rid to_unban mod = .ok (db', removed) →
        db'.ban_futures = db.ban_futures
          ∧ ∀ o ∈ db'.overrides, o.room = rid → o.user = to_unban.id →
              o.banned = false)
    ∧ ∀ (db : DB) (rid : Nat) (to_ban mod : UserRow) (now : Int) (db' : DB),
        ban_user db rid to_ban mod none now = .ok db' →
        ∀ f ∈ db'.ban_futures,
          ¬(f.room = rid ∧ f.user = to_ban.id ∧ f.banned = false) := by
  constructor
  · intro db rid to_unban mod db' removed h
    rw [unban_user] at h
    split at h
    · exact Except.noConfusion h
    · injection h with h1
      simp only [Prod.mk.injEq] at h1
      obtain ⟨hdb, -⟩ := h1
      constructor
      · rw [← hdb]
      · intro o ho hroom huser
        rw [← hdb] at ho
        simp only [List.mem_map] at ho
        obtain ⟨o0, ho0, hfo⟩ := ho
        by_cases hc : (o0.room == rid && o0.user == to_unban.id && o0.banned)
            = true
        · rw [hc] at hfo
          simp only [if_true] at hfo
          rw [← hfo]
        · simp only [hc] at hfo
          simp only [Bool.false_eq_true, if_false] at hfo
          subst hfo
          simp only [Bool.and_eq_true, beq_iff_eq] at hc
          push_neg at hc
          by_contra hb
          exact hc ⟨hroom, huser⟩ (by simpa using hb)
  · intro db rid to_ban mod now db' h
    rw [ban_user] at h
    dsimp only at h
    repeat' split at h
    all_goals first
      | exact Except.noConfusion h
      | (injection h with h1
         intro f hf
         rw [← h1] at hf
         simp only [List.mem_filter] at hf
         obtain ⟨-, hp⟩ := hf
         simp only [Bool.not_eq_eq_eq_not, Bool.not_true,
           Bool.and_eq_false_imp, Bool.and_eq_true, beq_iff_eq,
           Bool.not_eq_false] at hp
         rintro ⟨hr, hu, hb⟩
         have hx := hp ⟨hr, hu⟩
         rw [hb] at hx
         exact Bool.noConfusion hx)

/-- Witness for C7's amended claim, at `sampleDB`. -/
theorem c7_ban_cancels_pending_unban_futures_witness :
    unban_user sampleDB 1 user5 user3 = .ok (sampleUnbanDB, true)
    ∧ sampleUnbanDB.ban_futures = sampleDB.ban_futures
    ∧ ban_user sampleDB 1 user2 user3 none 50 = .ok sampleBanDB
    ∧ ∀ f ∈ sampleBanDB.ban_futures,
        ¬(f.room = 1 ∧ f.user = user2.id ∧ f.banned = false) :=
  ⟨by rfl,
   (c7_ban_cancels_pending_unban_futures.1 sampleDB 1 user5 user3
     sampleUnbanDB true (by rfl)).1,
   by rfl,
   c7_ban_cancels_pending_unban_futures.2 sampleDB 1 user2 user3 50
     sampleBanDB (by rfl)⟩

/-! ## Helper lemmas for the message lifecycle -/

/-- The counter returned by `softDeleteAux` never decreases. -/
theorem softDeleteAux_snd_ge (msgs : List MessageRow) (ids : List Nat) :
    ∀ seq : Nat, seq ≤ (softDeleteAux msgs ids seq).2 := by
  induction msgs with
  | nil => intro seq; exact Nat.le_refl seq
  | cons m ms ih =>
      intro seq
      rw [softDeleteAux]
      split
      · exact Nat.le_trans (Nat.le_succ seq) (ih (seq + 1))
      · exact ih seq

/-- If `softDeleteAux` changed the message list, the counter strictly grew. -/
theorem softDeleteAux_lt_of_ne (msgs : List MessageRow) (ids : List Nat) :
    ∀ seq : Nat, (softDeleteAux msgs ids seq).1 ≠ msgs →
      seq < (softDeleteAux msgs ids seq).2 := by
  induction msgs with
  | nil => intro seq h; exact absurd rfl h
  | cons m ms ih =>
      intro seq h
      rw [softDeleteAux] at h ⊢
      by_cases hc : ids.contains m.id = true
      · rw [if_pos hc]
        exact Nat.lt_of_lt_of_le (Nat.lt_succ_self seq)
          (softDeleteAux_snd_ge ms ids (seq + 1))
      · rw [if_neg hc] at h ⊢
        dsimp only at h ⊢
        refine ih seq ?_
        intro he
        exact h (by rw [he])

/-- A message whose id is not targeted survives `softDeleteAux` unchanged. -/
theorem softDeleteAux_mem_of_not_target (msgs : List MessageRow)
    (ids : List Nat) :
    ∀ (seq : Nat) (m : MessageRow), m ∈ msgs → ids.contains m.id = false →
      m ∈ (softDeleteAux msgs ids seq).1 := by
  induction msgs with
  | nil => intro seq m hm _; exact absurd hm (List.not_mem_nil m)
  | cons m' ms ih =>
      intro seq m hm hni
      rw [softDeleteAux]
      rcases List.mem_cons.mp hm with he | ht
      · subst he
        rw [if_neg (by rw [hni]; exact Bool.false_ne_true)]
        exact List.mem_cons_self m _
      · by_cases hc : ids.contains m'.id = true
        · rw [if_pos hc]
          exact List.mem_cons_of_mem _ (ih (seq + 1) m ht hni)
        · rw [if_neg hc]
          exact List.mem_cons_of_mem _ (ih seq m ht hni)

/-- `find?` over the rooms of `setRoomSeq`. -/
theorem findRoom_setRoomSeq (db : DB) (rid : Nat) (s : Nat) (rid' : Nat) :
    findRoom (setRoomSeq db rid s) rid'
      = (findRoom db rid').map (fun r =>
          if r.id == rid then { r with message_sequence := s } else r) := by
  unfold findRoom setRoomSeq
  rw [List.find?_map]
  have hp : ((fun r : RoomRow => r.id == rid')
        ∘ (fun r => if r.id == rid then { r with message_sequence := s }
            else r))
      = fun r : RoomRow => r.id == rid' := by
    funext r
    by_cases hc : (r.id == rid) = true
    · rw [Function.comp_apply, if_pos hc]
    · rw [Function.comp_apply, if_neg hc]
  rw [hp]

/-- `setRoomSeq` actually sets the counter of an existing room row. -/
theorem roomSeq_setRoomSeq (db : DB) (rid : Nat) (s : Nat)
    (h : (findRoom db rid).isSome = true) :
    roomSeq (setRoomSeq db rid s) rid = s := by
  unfold roomSeq
  rw [findRoom_setRoomSeq]
  cases hfr : findRoom db rid with
  | none => rw [hfr] at h; simp at h
  | some room =>
      have hfr' : db.rooms.find? (fun r => r.id == rid) = some room := hfr
      have hid := List.find?_some hfr'
      simp only at hid
      rw [beq_iff_eq] at hid
      simp [hid]

/-- `setRoomSeq` preserves which rooms exist. -/
theorem findRoom_isSome_setRoomSeq (db : DB) (rid : Nat) (s : Nat)
    (rid' : Nat) :
    (findRoom (setRoomSeq db rid s) rid').isSome
      = (findRoom db rid').isSome := by
  rw [findRoom_setRoomSeq]
  cases findRoom db rid' <;> rfl

/-- `Room.check_permission` does not depend on the room's counter. -/
theorem check_permission_seq_irrel (room : RoomRow) (s : Nat)
    (uo : Option (Option OverrideRow)) (req : PermissionReq) :
    Room.check_permission { room with message_sequence := s } uo req
      = Room.check_permission room uo req := by
  cases uo with
  | none => rfl
  | some ov => cases ov <;> rfl

/-- Permission checks are unchanged by a counter update. -/
theorem dbCheckPermission_setRoomSeq (db : DB) (rid : Nat) (s : Nat)
    (rid' : Nat) (u : Option UserRow) (req : PermissionReq) :
    dbCheckPermission (setRoomSeq db rid s) rid' u req
      = dbCheckPermission db rid' u req := by
  unfold dbCheckPermission
  rw [findRoom_setRoomSeq]
  cases hfr : findRoom db rid' with
  | none => rfl
  | some room =>
      simp only [Option.map_some']
      by_cases hc : (room.id == rid) = true
      · rw [if_pos hc]
        exact check_permission_seq_irrel room s _ req
      · rw [if_neg hc]
        rfl

/-- Permission checks are unchanged by a soft delete (it touches only the
message rows and the room counter). -/
theorem dbCheckPermission_softDelete (db : DB) (rid : Nat) (ids : List Nat)
    (rid' : Nat) (u : Option UserRow) (req : PermissionReq) :
    dbCheckPermission (softDeleteMessages db rid ids) rid' u req
      = dbCheckPermission db rid' u req := by
  unfold softDeleteMessages
  rw [dbCheckPermission_setRoomSeq]
  rfl

/-- Soft deletion preserves which rooms exist. -/
theorem findRoom_isSome_softDelete (db : DB) (rid : Nat) (ids : List Nat)
    (rid' : Nat) :
    (findRoom (softDeleteMessages db rid ids) rid').isSome
      = (findRoom db rid').isSome := by
  unfold softDeleteMessages
  rw [findRoom_isSome_setRoomSeq]
  rfl

/-- The message table produced by a soft delete. -/
theorem softDeleteMessages_messages (db : DB) (rid : Nat) (ids : List Nat) :
    (softDeleteMessages db rid ids).messages
      = (softDeleteAux db.messages ids (roomSeq db rid)).1 := rfl

/-- The counter produced by a soft delete (room present). -/
theorem roomSeq_softDelete (db : DB) (rid : Nat) (ids : List Nat)
    (h : (findRoom db rid).isSome = true) :
    roomSeq (softDeleteMessages db rid ids) rid
      = (softDeleteAux db.messages ids (roomSeq db rid)).2 := by
  unfold softDeleteMessages
  exact roomSeq_setRoomSeq _ rid _ h

/-- A live room message of the slice is selected by the slice query. -/
theorem mem_sliceIds (db : DB) (rid : Nat) (slice : List Nat)
    (m : MessageRow) (hm : m ∈ db.messages) (hroom : m.room = rid)
    (hdata : m.data.isSome = true) (hs : m.id ∈ slice) :
    m.id ∈ sliceIds db rid slice := by
  unfold sliceIds
  refine List.mem_map_of_mem _ (List.mem_filter.mpr ⟨hm, ?_⟩)
  simp only [Bool.and_eq_true, beq_iff_eq]
  exact ⟨⟨hroom, hdata⟩, List.elem_iff.mpr hs⟩

/-- The slice query returns only ids from the slice. -/
theorem sliceIds_subset (db : DB) (rid : Nat) (slice : List Nat)
    (x : Nat) (hx : x ∈ sliceIds db rid slice) : x ∈ slice := by
  unfold sliceIds at hx
  obtain ⟨m, hm, hid⟩ := List.mem_map.mp hx
  have hp := (List.mem_filter.mp hm).2
  simp only [Bool.and_eq_true] at hp
  rw [← hid]
  exact List.elem_iff.mp hp.2

/-- A `delete_posts` slice whose ids include a live message by another
author, processed by a non-moderator, fails with `BadPermission`. -/
theorem delete_posts_slice_foreign (db : DB) (rid : Nat) (deleter : UserRow)
    (slice : List Nat) (acc : List Nat)
    (hmod : dbCheckPermission db rid (some deleter) modReq = false)
    (hex : ∃ m ∈ db.messages, m.room = rid ∧ m.data.isSome = true
        ∧ m.id ∈ slice ∧ m.user ≠ deleter.id) :
    delete_posts_slice db rid deleter slice acc = .error .badPermission := by
  obtain ⟨m, hm, hroom, hdata, hs, hu⟩ := hex
  have hmem : m.id ∈ sliceIds db rid slice :=
    mem_sliceIds db rid slice m hm hroom hdata hs
  unfold delete_posts_slice
  dsimp only
  rw [if_neg (by simp [List.isEmpty_eq_false.mpr (List.ne_nil_of_mem hmem)])]
  rw [if_pos]
  rw [hmod]
  simp only [Bool.not_false, Bool.true_and]
  refine List.any_eq_true.mpr ⟨m, hm, ?_⟩
  simp only [Bool.and_eq_true, bne_iff_ne, ne_eq]
  exact ⟨hu, List.elem_iff.mpr hmem⟩

/-- A `delete_posts` slice can only fail with `BadPermission`. -/
theorem delete_posts_slice_error (db : DB) (rid : Nat) (deleter : UserRow)
    (slice : List Nat) (acc : List Nat) (e : SogsError)
    (h : delete_posts_slice db rid deleter slice acc = .error e) :
    e = SogsError.badPermission := by
  unfold delete_posts_slice at h
  dsimp only at h
  split at h
  · exact Except.noConfusion h
  · split at h
    · injection h with h1
      exact h1.symm
    · exact Except.noConfusion h

/-- A successful `delete_posts` slice either left the state alone or
soft-deleted exactly the slice's live ids. -/
theorem delete_posts_slice_ok_shape (db : DB) (rid : Nat) (deleter : UserRow)
    (slice : List Nat) (acc : List Nat) (db' : DB) (acc' : List Nat)
    (h : delete_posts_slice db rid deleter slice acc = .ok (db', acc')) :
    db' = db ∨ db' = softDeleteMessages db rid (sliceIds db rid slice) := by
  unfold delete_posts_slice at h
  dsimp only at h
  split at h
  · injection h with h1
    simp only [Prod.mk.injEq] at h1
    exact Or.inl h1.1.symm
  · split at h
    · exact Except.noConfusion h
    · injection h with h1
      simp only [Prod.mk.injEq] at h1
      exact Or.inr h1.1.symm

/-- A successful slice does not change any permission check. -/
theorem delete_posts_slice_check (db : DB) (rid : Nat) (deleter : UserRow)
    (slice : List Nat) (acc : List Nat) (db' : DB) (acc' : List Nat)
    (h : delete_posts_slice db rid deleter slice acc = .ok (db', acc'))
    (rid' : Nat) (u : Option UserRow) (req : PermissionReq) :
    dbCheckPermission db' rid' u req = dbCheckPermission db rid' u req := by
  rcases delete_posts_slice_ok_shape db rid deleter slice acc db' acc' h with
    he | he
  · rw [he]
  · rw [he, dbCheckPermission_softDelete]

/-- A message whose id is outside the slice survives a successful slice
untouched. -/
theorem delete_posts_slice_survives (db : DB) (rid : Nat) (deleter : UserRow)
    (slice : List Nat) (acc : List Nat) (db' : DB) (acc' : List Nat)
    (h : delete_posts_slice db rid deleter slice acc = .ok (db', acc'))
    (m : MessageRow) (hm : m ∈ db.messages) (hs : m.id ∉ slice) :
    m ∈ db'.messages := by
  rcases delete_posts_slice_ok_shape db rid deleter slice acc db' acc' h with
    he | he
  · rw [he]; exact hm
  · rw [he, softDeleteMessages_messages]
    refine softDeleteAux_mem_of_not_target db.messages _ _ m hm ?_
    cases hb : (sliceIds db rid slice).contains m.id with
    | false => rfl
    | true =>
        exact absurd (sliceIds_subset db rid slice m.id
          (List.elem_iff.mp hb)) hs

/-- If a non-moderator's id batch contains a live message by another author,
the `delete_posts` loop fails with `BadPermission` (fuel-indexed form). -/
theorem delete_posts_loop_foreign (rid : Nat) (deleter : UserRow) :
    ∀ (n : Nat) (ids : List Nat) (db : DB) (acc : List Nat),
      ids.length ≤ n →
      dbCheckPermission db rid (some deleter) modReq = false →
      (∃ m ∈ db.messages, m.room = rid ∧ m.data.isSome = true
        ∧ m.id ∈ ids ∧ m.user ≠ deleter.id) →
      delete_posts_loop db rid deleter ids acc = .error .badPermission := by
  intro n
  induction n with
  | zero =>
      intro ids db acc hlen _ hex
      obtain ⟨m, _, _, _, hid, _⟩ := hex
      rw [Nat.le_zero, List.length_eq_zero] at hlen
      subst hlen
      exact absurd hid (List.not_mem_nil _)
  | succ n ih =>
      intro ids db acc hlen hmod hex
      obtain ⟨m, hm, hroom, hdata, hid, hu⟩ := hex
      have hne : ids ≠ [] := by
        rintro rfl
        exact List.not_mem_nil _ hid
      rw [delete_posts_loop,
        if_neg (by simp [List.isEmpty_eq_false.mpr hne])]
      by_cases hsl : m.id ∈ ids.take 50
      · rw [delete_posts_slice_foreign db rid deleter _ acc hmod
          ⟨m, hm, hroom, hdata, hsl, hu⟩]
      · have hdr : m.id ∈ ids.drop 50 := by
          rcases List.mem_append.mp
              (by rw [List.take_append_drop]; exact hid :
                m.id ∈ ids.take 50 ++ ids.drop 50) with hc | hc
          · exact absurd hc hsl
          · exact hc
        cases hstep : delete_posts_slice db rid deleter (ids.take 50) acc with
        | error e =>
            rw [delete_posts_slice_error db rid deleter _ acc e hstep]
        | ok r =>
            obtain ⟨db', acc'⟩ := r
            refine ih (ids.drop 50) db' acc' ?_ ?_ ?_
            · rw [List.length_drop]
              have h1 : ids.length - 50 ≤ ids.length - 1 :=
                Nat.sub_le_sub_left (by decide) ids.length
              refine Nat.le_trans h1 ?_
              exact Nat.sub_le_of_le_add (by omega)
            · rw [delete_posts_slice_check db rid deleter _ acc db' acc'
                hstep]
              exact hmod
            · exact ⟨m,
                delete_posts_slice_survives db rid deleter _ acc db' acc'
                  hstep m hm hsl,
                hroom, hdata, hdr, hu⟩

/-- Database version of `checkPermissionRow_of_admin`: a room admin passes
every check against the same database. -/
theorem dbCheckPermission_of_admin (db : DB) (rid : Nat) (u : UserRow)
    (req : PermissionReq)
    (h : dbCheckPermission db rid (some u) adminReq = true) :
    dbCheckPermission db rid (some u) req = true := by
  unfold dbCheckPermission at h ⊢
  cases hfr : findRoom db rid with
  | none => rw [hfr] at h; exact Bool.noConfusion h
  | some room =>
      rw [hfr] at h
      dsimp only [Option.map] at h ⊢
      simp only [Room.check_permission] at h ⊢
      rw [checkPermissionRow_adminReq] at h
      exact checkPermissionRow_of_admin _ req h

/-! ## C5: batch delete rejection -/

/-- C5: when the deleter is not a moderator of the room and the set of
existing, not-already-deleted messages among `ids` contains at least one
message authored by a different user, the whole `delete_posts` call raises
`BadPermission` — including when `ids` spans multiple 50-id slices.  The
`.error` result models the exception with the single enclosing transaction
rolled back, so no message in the batch is deleted (state unchanged). -/
theorem c5_delete_posts_rejects_mixed_batch (db : DB) (rid : Nat)
    (deleter : UserRow) (ids : List Nat)
    (hmod : dbCheckPermission db rid (some deleter) modReq = false)
    (hex : ∃ m ∈ db.messages, m.room = rid ∧ m.data.isSome = true
        ∧ m.id ∈ ids ∧ m.user ≠ deleter.id) :
    delete_posts db rid ids deleter = .error .badPermission :=
  delete_posts_loop_foreign rid deleter ids.length ids db []
    (Nat.le_refl _) hmod hex

/-- Witness for C5: user 2 (not a moderator) tries to delete message 10,
which was authored by user 9. -/
theorem c5_delete_posts_rejects_mixed_batch_witness :
    dbCheckPermission sampleMsgDB 1 (some user2) modReq = false
    ∧ (foreignMsg ∈ sampleMsgDB.messages ∧ foreignMsg.room = 1
        ∧ foreignMsg.data.isSome = true ∧ foreignMsg.id ∈ [10]
        ∧ foreignMsg.user ≠ user2.id)
    ∧ delete_posts sampleMsgDB 1 [10] user2 = .error .badPermission :=
  ⟨by decide, by decide,
   c5_delete_posts_rejects_mixed_batch sampleMsgDB 1 user2 [10] (by decide)
     ⟨foreignMsg, by decide, by decide, by decide, by decide, by decide⟩⟩

/-! ## C6: the sliding-window rate limit -/

/-- C6: (a) a user who is not a room admin, already having
`rate_limit_size` (5) messages posted in the room within the last
`rate_limit_interval` (16) seconds, gets `PostRateLimited` from `add_post`
and nothing is stored (the `.error` models the exception before any insert);
(b) a room admin is exempt: the same post succeeds;
(c) once the window has elapsed (every earlier message of the user in the
room was posted more than `rate_limit_interval` ago), posting succeeds
again.  The non-rate-limit preconditions of `add_post` (write permission, a
64-byte signature, a non-whisper post, a filter verdict) are hypotheses. -/
theorem c6_post_rate_limit :
    (∀ (db : DB) (rid : Nat) (user : UserRow) (d s : Bytes) (f : Bool)
        (fe ph sc : Bool) (now : Int),
      dbCheckPermission db rid (some user) writeReq = true →
      s.length = 64 →
      should_filter db rid user fe ph sc = .ok f →
      dbCheckPermission db rid (some user) adminReq = false →
      rate_limit_size ≤ recentPostCount db rid user.id now →
      add_post db rid user (some d) (some s) none false fe ph sc now
        = .error .postRateLimited)
    ∧ (∀ (db : DB) (rid : Nat) (user : UserRow) (d s : Bytes)
        (fe ph sc : Bool) (now : Int),
      dbCheckPermission db rid (some user) adminReq = true →
      s.length = 64 →
      ∃ r, add_post db rid user (some d) (some s) none false fe ph sc now
        = .ok r)
    ∧ (∀ (db : DB) (rid : Nat) (user : UserRow) (d s : Bytes) (f : Bool)
        (fe ph sc : Bool) (now : Int),
      dbCheckPermission db rid (some user) writeReq = true →
      s.length = 64 →
      should_filter db rid user fe ph sc = .ok f →
      (∀ m ∈ db.messages, m.room = rid → m.user = user.id →
        m.posted < now - rate_limit_interval) →
      ∃ r, add_post db rid user (some d) (some s) none false fe ph sc now
        = .ok r) := by
  refine ⟨?_, ?_, ?_⟩
  · intro db rid user d s f fe ph sc now hW hs hF hA hC
    unfold add_post
    rw [if_neg (by rw [hW]; decide)]
    dsimp only
    rw [if_neg (by rw [hs]; decide)]
    rw [if_neg (by simp)]
    rw [hF]
    dsimp only
    rw [if_pos (by simp only [rate_limit_size] at hC ⊢; simp [hA, hC])]
  · intro db rid user d s fe ph sc now hAdm hs
    have hW := dbCheckPermission_of_admin db rid user writeReq hAdm
    have hsf : should_filter db rid user fe ph sc = .ok false := by
      unfold should_filter
      rw [hAdm]
      simp
    unfold add_post
    rw [if_neg (by rw [hW]; decide)]
    dsimp only
    rw [if_neg (by rw [hs]; decide)]
    rw [if_neg (by simp)]
    rw [hsf]
    dsimp only
    rw [if_neg (by rw [hAdm]; simp)]
    exact ⟨_, rfl⟩
  · intro db rid user d s f fe ph sc now hW hs hF hQ
    have hc0 : recentPostCount db rid user.id now = 0 := by
      unfold recentPostCount
      rw [List.length_eq_zero]
      refine List.filter_eq_nil_iff.mpr ?_
      intro m hm
      simp only [Bool.and_eq_true, beq_iff_eq, decide_eq_true_eq, not_and]
      rintro ⟨h1, h2⟩ h3
      exact absurd h3 (not_le.mpr (hQ m hm h1 h2))
    unfold add_post
    rw [if_neg (by rw [hW]; decide)]
    dsimp only
    rw [if_neg (by rw [hs]; decide)]
    rw [if_neg (by simp)]
    rw [hF]
    dsimp only
    rw [if_neg (by rw [hc0]; simp [rate_limit_size])]
    exact ⟨_, rfl⟩

/-- Witness for C6 at concrete states: user 2 has five posts at times 40..44
in `busyDB`; a sixth at time 50 is rate-limited, admin 4 posts anyway at
time 50, and user 2 posts successfully at time 100. -/
theorem c6_post_rate_limit_witness :
    (dbCheckPermission busyDB 1 (some user2) writeReq = true
      ∧ sampleSig.length = 64
      ∧ should_filter busyDB 1 user2 false false false = .ok false
      ∧ dbCheckPermission busyDB 1 (some user2) adminReq = false
      ∧ rate_limit_size ≤ recentPostCount busyDB 1 user2.id 50
      ∧ add_post busyDB 1 user2 (some [1]) (some sampleSig) none false false
          false false 50 = .error .postRateLimited)
    ∧ (dbCheckPermission busyDB 1 (some user4) adminReq = true
      ∧ ∃ r, add_post busyDB 1 user4 (some [1]) (some sampleSig) none false
          false false false 50 = .ok r)
    ∧ ((∀ m ∈ busyDB.messages, m.room = 1 → m.user = user2.id →
          m.posted < 100 - rate_limit_interval)
      ∧ ∃ r, add_post busyDB 1 user2 (some [1]) (some sampleSig) none false
          false false false 100 = .ok r) :=
  ⟨⟨by decide, by decide, by decide, by decide, by decide,
    c6_post_rate_limit.1 busyDB 1 user2 [1] sampleSig false false false
      false 50 (by decide) (by decide) (by decide) (by decide) (by decide)⟩,
   ⟨by decide,
    c6_post_rate_limit.2.1 busyDB 1 user4 [1] sampleSig false false false 50
      (by decide) (by decide)⟩,
   ⟨by decide,
    c6_post_rate_limit.2.2 busyDB 1 user2 [1] sampleSig false false false
      false 100 (by decide) (by decide) (by decide) (by decide)⟩⟩

/-! ## C8: message_sequence monotonicity -/

/-- A successful `delete_posts` slice never decreases the room counter, and
strictly increases it when it changed the message table. -/
theorem delete_posts_slice_seq (db : DB) (rid : Nat) (deleter : UserRow)
    (slice : List Nat) (acc : List Nat) (db' : DB) (acc' : List Nat)
    (h : delete_posts_slice db rid deleter slice acc = .ok (db', acc'))
    (hroom : (findRoom db rid).isSome = true) :
    roomSeq db rid ≤ roomSeq db' rid
      ∧ (db'.messages ≠ db.messages → roomSeq db rid < roomSeq db' rid)
      ∧ (findRoom db' rid).isSome = true := by
  rcases delete_posts_slice_ok_shape db rid deleter slice acc db' acc' h with
    he | he
  · subst he
    exact ⟨Nat.le_refl _, fun hne => absurd rfl hne, hroom⟩
  · subst he
    refine ⟨?_, ?_, ?_⟩
    · rw [roomSeq_softDelete db rid _ hroom]
      exact softDeleteAux_snd_ge db.messages _ (roomSeq db rid)
    · intro hne
      rw [roomSeq_softDelete db rid _ hroom]
      refine softDeleteAux_lt_of_ne db.messages _ (roomSeq db rid) ?_
      rw [← softDeleteMessages_messages]
      exact hne
    · rw [findRoom_isSome_softDelete]
      exact hroom

/-- The `delete_posts` loop never decreases the room counter, and strictly
increases it when it changed the message table (fuel-indexed form). -/
theorem delete_posts_loop_seq (rid : Nat) (deleter : UserRow) :
    ∀ (n : Nat) (ids : List Nat) (db : DB) (acc : List Nat) (db' : DB)
      (out : List Nat),
      ids.length ≤ n →
      (findRoom db rid).isSome = true →
      delete_posts_loop db rid deleter ids acc = .ok (db', out) →
      roomSeq db rid ≤ roomSeq db' rid
        ∧ (db'.messages ≠ db.messages → roomSeq db rid < roomSeq db' rid) := by
  intro n
  induction n with
  | zero =>
      intro ids db acc db' out hlen _ hloop
      rw [Nat.le_zero, List.length_eq_zero] at hlen
      subst hlen
      rw [delete_posts_loop,
        if_pos (by rfl : ([] : List Nat).isEmpty = true)] at hloop
      injection hloop with h1
      simp only [Prod.mk.injEq] at h1
      rw [← h1.1]
      exact ⟨Nat.le_refl _, fun hne => absurd rfl hne⟩
  | succ n ih =>
      intro ids db acc db' out hlen hroom hloop
      by_cases hidse : ids.isEmpty = true
      · rw [delete_posts_loop, if_pos hidse] at hloop
        injection hloop with h1
        simp only [Prod.mk.injEq] at h1
        rw [← h1.1]
        exact ⟨Nat.le_refl _, fun hne => absurd rfl hne⟩
      · rw [delete_posts_loop, if_neg hidse] at hloop
        cases hstep : delete_posts_slice db rid deleter (ids.take 50) acc with
        | error e => rw [hstep] at hloop; exact Except.noConfusion hloop
        | ok r =>
            obtain ⟨db1, acc1⟩ := r
            rw [hstep] at hloop
            have hslice := delete_posts_slice_seq db rid deleter
              (ids.take 50) acc db1 acc1 hstep hroom
            have hlen' : (ids.drop 50).length ≤ n := by
              rw [List.length_drop]
              have hpos : 1 ≤ ids.length := by
                rcases Nat.eq_zero_or_pos ids.length with hz | hp
                · rw [List.length_eq_zero] at hz
                  exact absurd (by rw [hz]; rfl) hidse
                · exact hp
              omega
            have hrest := ih (ids.drop 50) db1 acc1 db' out hlen'
              hslice.2.2 hloop
            constructor
            · exact Nat.le_trans hslice.1 hrest.1
            · intro hne
              by_cases hmid : db1.messages = db.messages
              · have : db'.messages ≠ db1.messages := by
                  rw [hmid]; exact hne
                exact Nat.lt_of_le_of_lt hslice.1 (hrest.2 this)
              · exact Nat.lt_of_lt_of_le (hslice.2.1 hmid) hrest.1

/-- A successful `add_post` bumps the room counter by exactly one. -/
theorem add_post_seq (db : DB) (rid : Nat) (user : UserRow)
    (data sig : Option Bytes) (wt : Option UserRow) (wm fe ph sc : Bool)
    (now : Int) (db' : DB) (res : PostedMsg)
    (hroom : (findRoom db rid).isSome = true)
    (h : add_post db rid user data sig wt wm fe ph sc now = .ok (db', res)) :
    roomSeq db' rid = roomSeq db rid + 1 := by
  simp only [add_post] at h
  repeat' split at h
  any_goals exact Except.noConfusion h
  injection h with h1
  simp only [Prod.mk.injEq] at h1
  rw [← h1.1]
  unfold insertMessage
  dsimp only
  exact roomSeq_setRoomSeq _ rid _ hroom

/-- The `edit_post` update bumps the room counter by exactly one. -/
theorem updateMessageRow_seq (db : DB) (rid mid : Nat) (d : Bytes) (n : Nat)
    (s : Bytes) (hroom : (findRoom db rid).isSome = true) :
    roomSeq (updateMessageRow db rid mid d n s) rid = roomSeq db rid + 1 := by
  unfold updateMessageRow
  dsimp only
  exact roomSeq_setRoomSeq _ rid _ hroom

/-- A successful `edit_post` never decreases the room counter, and strictly
increases it when it changed the message table. -/
theorem edit_post_seq (db : DB) (rid : Nat) (user : UserRow) (mid : Nat)
    (data sig : Option Bytes) (fe ph sc : Bool) (db' : DB)
    (hroom : (findRoom db rid).isSome = true)
    (h : edit_post db rid user mid data sig fe ph sc = .ok db') :
    roomSeq db rid ≤ roomSeq db' rid
      ∧ (db'.messages ≠ db.messages → roomSeq db rid < roomSeq db' rid) := by
  simp only [edit_post] at h
  repeat' split at h
  -- the three success shapes: unreachable error, the silent-filter no-op
  -- returning the state unchanged, and the real update bumping the counter
  all_goals first
    | exact Except.noConfusion h
    | (injection h with h1
       rw [← h1]
       exact ⟨Nat.le_refl _, fun hne => absurd rfl hne⟩)
    | (injection h with h1
       rw [← h1]
       refine ⟨?_, fun _ => ?_⟩
       · rw [updateMessageRow_seq db rid mid _ _ _ hroom]
         exact Nat.le_succ _
       · rw [updateMessageRow_seq db rid mid _ _ _ hroom]
         exact Nat.lt_succ_self _)

/-- C8: across every room operation (post / edit / bulk delete), the room's
`message_sequence` after a successful run is ≥ its value before, and strictly
greater whenever the operation mutated the message table; a failed run
raises, i.e. the transaction rolls back and the caller keeps the old state
unchanged. -/
theorem c8_message_sequence_monotone (db : DB) (rid : Nat) (op : RoomOp)
    (db' : DB) (hroom : (findRoom db rid).isSome = true)
    (h : runRoomOp db rid op = .ok db') :
    roomSeq db rid ≤ roomSeq db' rid
      ∧ (db'.messages ≠ db.messages → roomSeq db rid < roomSeq db' rid) := by
  cases op with
  | post u d s wt wm fe ph sc now =>
      simp only [runRoomOp] at h
      cases hap : add_post db rid u d s wt wm fe ph sc now with
      | error e => rw [hap] at h; exact Except.noConfusion h
      | ok r =>
          rw [hap] at h
          dsimp only [Except.map] at h
          injection h with h1
          have hseq := add_post_seq db rid u d s wt wm fe ph sc now r.1 r.2
            hroom (by rw [hap])
          rw [← h1]
          exact ⟨by rw [hseq]; exact Nat.le_succ _,
                 fun _ => by rw [hseq]; exact Nat.lt_succ_self _⟩
  | edit u mid d s fe ph sc =>
      simp only [runRoomOp] at h
      exact edit_post_seq db rid u mid d s fe ph sc db' hroom h
  | delete ids u =>
      simp only [runRoomOp] at h
      cases hdp : delete_posts db rid ids u with
      | error e => rw [hdp] at h; exact Except.noConfusion h
      | ok r =>
          rw [hdp] at h
          dsimp only [Except.map] at h
          injection h with h1
          rw [← h1]
          exact delete_posts_loop_seq rid u ids.length ids db [] r.1 r.2
            (Nat.le_refl _) hroom (by rw [← hdp]; rfl)

/-- Witness for C8: the concrete post `samplePostOp` on `sampleDB`. -/
theorem c8_message_sequence_monotone_witness :
    (findRoom sampleDB 1).isSome = true
    ∧ runRoomOp sampleDB 1 samplePostOp = .ok samplePostDB
    ∧ roomSeq sampleDB 1 ≤ roomSeq samplePostDB 1
    ∧ (samplePostDB.messages ≠ sampleDB.messages →
        roomSeq sampleDB 1 < roomSeq samplePostDB 1) :=
  ⟨by decide, by decide,
   (c8_message_sequence_monotone sampleDB 1 samplePostOp samplePostDB
     (by decide) (by decide)).1,
   (c8_message_sequence_monotone sampleDB 1 samplePostOp samplePostDB
     (by decide) (by decide)).2⟩

end Sogs
